import Mathlib

/-!
Verification of the geth formatting middleware (`web3/middleware/geth.py`).

The middleware is a table-driven transcoder between native values and the
JSON-RPC wire encoding.  We embed the JSON-like value tree, the scalar
converters, the combinators from `web3.utils.formatters` and
`cytoolz` (`compose`, `complement`, `keymap`, `valmap`), and the per-method
formatter tables, then prove the stated properties.

Python exceptions are represented by `Option`: a converter that raises
returns `none`; `some v` is a normal return.
-/

/-- The JSON-like value tree the middleware operates on: null, booleans,
integers, text, raw byte strings, ordered sequences and keyed mappings
(Python dict keys may be text or bytes, so keys are `Value`s). -/
inductive Value where
  | null
  | bool (b : Bool)
  | int (i : Int)
  | str (s : String)
  | bytes (bs : List Nat)
  | seq (xs : List Value)
  | map (kvs : List (Value × Value))

/-- Model of `eth_utils.is_null`: the value is Python `None`. -/
def is_null : Value → Bool
  | Value.null => true
  | _ => false

/-- Model of `eth_utils.is_bytes`: the value is a raw byte string. -/
def is_bytes : Value → Bool
  | Value.bytes _ => true
  | _ => false

/-- Modelled from the spec: the text type predicate used to guard
`hexToInteger` (the concrete `eth_utils.is_string` is not in the sources;
the spec types the guarded converter over text input). -/
def is_string : Value → Bool
  | Value.str _ => true
  | _ => false

/-- Model of `eth_utils.is_integer`: an integer (Python booleans excluded). -/
def is_integer : Value → Bool
  | Value.int _ => true
  | _ => false

/-- Model of `eth_utils.is_dict`: the value is a mapping. -/
def is_dict : Value → Bool
  | Value.map _ => true
  | _ => false

/-- Model of `cytoolz.functoolz.complement`: boolean negation of a
predicate. -/
def complement (p : Value → Bool) : Value → Bool := fun v => !(p v)

/-- Embeds `is_not_null = complement(is_null)` (geth.py line 45). -/
def is_not_null : Value → Bool := complement is_null

/-- Whether a character is one of the sixteen lowercase hexadecimal
digits, decided on its code point (digits are 48-57, letters 97-102). -/
def isLowerHexDigit (c : Char) : Bool :=
  (48 ≤ c.toNat && c.toNat ≤ 57) || (97 ≤ c.toNat && c.toNat ≤ 102)

/-- The lowercase hex digit character for a value below sixteen (and the
digit zero above the range, never reached by the encoders here). -/
def hexDigitChar (d : Nat) : Char :=
  if d < 10 then Char.ofNat (48 + d)
  else if d < 16 then Char.ofNat (87 + d)
  else '0'

/-- Numeric value of one hexadecimal digit character, either case, read
off its code point; `none` for a non-hex-digit character. -/
def hexDigitVal (c : Char) : Option Nat :=
  if 48 ≤ c.toNat && c.toNat ≤ 57 then some (c.toNat - 48)
  else if 97 ≤ c.toNat && c.toNat ≤ 102 then some (c.toNat - 87)
  else if 65 ≤ c.toNat && c.toNat ≤ 70 then some (c.toNat - 55)
  else none

/-- Fuel-driven most-significant-first hex digit expansion of a natural
number; the fuel only needs to exceed the number of digit extraction
steps, and `natToHex` supplies enough. -/
def natToHexAux : Nat → Nat → List Char
  | 0, _ => []
  | Nat.succ fuel, n =>
    if n < 16 then [hexDigitChar n]
    else natToHexAux fuel (n / 16) ++ [hexDigitChar (n % 16)]

/-- The lowercase hex digits of a natural number, most significant first,
with no leading zeros (and the single digit `'0'` for zero). -/
def natToHex (n : Nat) : List Char := natToHexAux (n + 1) n

/-- The character list produced by Python's built-in `hex` on an integer:
`0x` plus lowercase digits for a non-negative argument, `-0x` plus the
digits of the magnitude for a negative one. -/
def intToHexChars : Int → List Char
  | Int.ofNat m => '0' :: 'x' :: natToHex m
  | Int.negSucc m => '-' :: '0' :: 'x' :: natToHex (m + 1)

/-- Model of Python's built-in `hex` as used in the formatter tables: on an
integer (or a boolean, which Python treats as an integer) it returns the
hex text; on any other value it raises `TypeError` (here `none`). -/
def hex : Value → Option Value
  | Value.int i => some (Value.str (String.mk (intToHexChars i)))
  | Value.bool b => some (Value.str (String.mk (intToHexChars (if b then 1 else 0))))
  | _ => none

/-- Left-to-right accumulator parse of hex digit characters; `none` at the
first non-digit character. -/
def parseHexAux : Nat → List Char → Option Nat
  | acc, [] => some acc
  | acc, c :: rest =>
    match hexDigitVal c with
    | some d => parseHexAux (acc * 16 + d) rest
    | none => none

/-- Parse a non-empty run of hex digit characters as a natural number. -/
def parseHexDigits (cs : List Char) : Option Nat :=
  match cs with
  | [] => none
  | _ :: _ => parseHexAux 0 cs

/-- Drop one optional leading `0x` or `0X` marker from a character list. -/
def dropHex0x : List Char → List Char
  | '0' :: 'x' :: rest => rest
  | '0' :: 'X' :: rest => rest
  | cs => cs

/-- Modelled from the spec: `hex_to_integer` from `web3.utils.formatters`
(not in the sources) — accepts text made of an optional `0x`/`0X` marker
followed by hex digits in either case and returns the integer value; fails
on non-hex text or non-text input. -/
def hex_to_integer : Value → Option Value
  | Value.str s => (parseHexDigits (dropHex0x s.data)).map (fun n => Value.int (Int.ofNat n))
  | _ => none

/-- Embeds `bytes_to_ascii` (geth.py lines 36-37): `codecs.decode(value, 'ascii')` —
decode a raw byte string as ASCII text; fails on a byte above 127 or on a
non-bytes value. -/
def bytes_to_ascii : Value → Option Value
  | Value.bytes bs =>
    if bs.all (fun b => b < 128) then some (Value.str (String.mk (bs.map Char.ofNat)))
    else none
  | _ => none

/-- Lower one uppercase hex letter; other characters are unchanged. -/
def hexCharToLower (c : Char) : Char :=
  if 'A' ≤ c ∧ c ≤ 'F' then Char.ofNat (c.toNat + 32) else c

/-- Two lowercase hex digit characters per byte, most significant first. -/
def bytesToHexChars (bs : List Nat) : List Char :=
  bs.foldr (fun b acc => hexDigitChar (b / 16) :: hexDigitChar (b % 16) :: acc) []

/-- Model of `eth_utils.to_normalized_address` per the spec's converter
description: accepts a 20-byte value or its hex-text representation and
returns canonical lowercase `0x`-prefixed 40-hex-digit text; fails on
wrong length or invalid hex. -/
def to_normalized_address : Value → Option Value
  | Value.str s =>
    let digits := dropHex0x s.data
    if digits.length = 40 && digits.all (fun c => (hexDigitVal c).isSome) then
      some (Value.str (String.mk ('0' :: 'x' :: digits.map hexCharToLower)))
    else none
  | Value.bytes bs =>
    if bs.length = 20 then some (Value.str (String.mk ('0' :: 'x' :: bytesToHexChars bs)))
    else none
  | _ => none

/-- Modelled from the spec: `apply_formatter_if` from
`web3.utils.formatters` (not in the sources) — apply the formatter only
when the predicate holds, otherwise return the input unchanged. -/
def apply_formatter_if (formatter : Value → Option Value) (condition : Value → Bool) :
    Value → Option Value :=
  fun v => if condition v then formatter v else some v

/-- A field-formatter table: field name to converter, in declaration order. -/
abbrev FormatterTable := List (String × (Value → Option Value))

/-- First converter in a table registered under the given name. -/
def convLookup : FormatterTable → String → Option (Value → Option Value)
  | [], _ => none
  | (name, f) :: rest, k => if name = k then some f else convLookup rest k

/-- The table's action on one key/value pair: a text key registered in the
table converts the value; any other key leaves the value unchanged. -/
def tableStep (t : FormatterTable) (k x : Value) : Option Value :=
  match k with
  | Value.str s =>
    match convLookup t s with
    | some f => f x
    | none => some x
  | _ => some x

/-- Whether the table registers a converter under this (text) key. -/
def tableHasKey (t : FormatterTable) (k : Value) : Bool :=
  match k with
  | Value.str s => (convLookup t s).isSome
  | _ => false

/-- One pass over a mapping's pairs: a pair whose key is text registered in
the table has its value converted (propagating converter failure); every
other pair is copied unchanged. -/
def applyTableToPairs (t : FormatterTable) : List (Value × Value) → Option (List (Value × Value))
  | [] => some []
  | (k, x) :: rest =>
    match tableStep t k x, applyTableToPairs t rest with
    | some y, some ys => some ((k, y) :: ys)
    | _, _ => none

/-- Modelled from the spec: `apply_formatters_to_dict` from
`web3.utils.formatters` (not in the sources) — on a mapping, convert the
value at each key present in both the mapping and the table and copy every
other key unchanged; non-mapping input is an error. -/
def apply_formatters_to_dict (t : FormatterTable) : Value → Option Value
  | Value.map kvs => (applyTableToPairs t kvs).map Value.map
  | _ => none

/-- Apply a converter to every element of a list, propagating failure. -/
def mapConv (f : Value → Option Value) : List Value → Option (List Value)
  | [] => some []
  | x :: rest =>
    match f x, mapConv f rest with
    | some y, some ys => some (y :: ys)
    | _, _ => none

/-- Modelled from the spec: `apply_formatter_to_array` from
`web3.utils.formatters` (not in the sources) — map the converter over
every element of an ordered sequence, preserving order and length; fails
on non-sequence input. -/
def apply_formatter_to_array (f : Value → Option Value) : Value → Option Value
  | Value.seq xs => (mapConv f xs).map Value.seq
  | _ => none

/-- Replace the element at the given position of a list with the
converter's output; `none` when the position is beyond the end or the
converter fails. -/
def setAtIndex (f : Value → Option Value) : Nat → List Value → Option (List Value)
  | _, [] => none
  | 0, x :: rest => (f x).map (· :: rest)
  | Nat.succ i, x :: rest => (setAtIndex f i rest).map (x :: ·)

/-- Modelled from the spec: `apply_formatter_at_index` from
`web3.utils.formatters` (not in the sources) — on an ordered sequence,
replace the element at the index with the converter's result, leaving all
other positions untouched; fails when the index is out of range or the
input is not a sequence. -/
def apply_formatter_at_index (f : Value → Option Value) (idx : Nat) : Value → Option Value
  | Value.seq xs => (setAtIndex f idx xs).map Value.seq
  | _ => none

/-- Model of `cytoolz.functoolz.compose` at two arguments: right-to-left
composition — `compose(f, g)` applies `g` first and `f` to its result. -/
def compose (f g : Value → Option Value) : Value → Option Value :=
  fun v => (g v).bind f

/-- Convert every key of a pair list, propagating converter failure. -/
def mapConvKeys (f : Value → Option Value) : List (Value × Value) → Option (List (Value × Value))
  | [] => some []
  | (k, v) :: rest =>
    match f k, mapConvKeys f rest with
    | some k2, some ys => some ((k2, v) :: ys)
    | _, _ => none

/-- Convert every value of a pair list, propagating converter failure. -/
def mapConvVals (f : Value → Option Value) : List (Value × Value) → Option (List (Value × Value))
  | [] => some []
  | (k, v) :: rest =>
    match f v, mapConvVals f rest with
    | some v2, some ys => some ((k, v2) :: ys)
    | _, _ => none

/-- Model of `cytoolz.curried.keymap`: convert every key of a mapping,
leaving the values unchanged; fails on non-mapping input. -/
def keymap (f : Value → Option Value) : Value → Option Value
  | Value.map kvs => (mapConvKeys f kvs).map Value.map
  | _ => none

/-- Model of `cytoolz.curried.valmap`: convert every value of a mapping,
leaving the keys unchanged; fails on non-mapping input. -/
def valmap (f : Value → Option Value) : Value → Option Value
  | Value.map kvs => (mapConvVals f kvs).map Value.map
  | _ => none

/-- Embeds `to_ascii_if_bytes` (geth.py line 40). -/
def to_ascii_if_bytes : Value → Option Value := apply_formatter_if bytes_to_ascii is_bytes

/-- Embeds `to_integer_if_hex` (geth.py line 41). -/
def to_integer_if_hex : Value → Option Value := apply_formatter_if hex_to_integer is_string

/-- Embeds `block_number_formatter` (geth.py line 42): hex-encode integers, pass
every other value (such as the text block tags) through unchanged. -/
def block_number_formatter : Value → Option Value := apply_formatter_if hex is_integer

/-- Embeds `TRANSACTION_PARAMS_FORMATTERS` (geth.py lines 49-54). -/
def TRANSACTION_PARAMS_FORMATTERS : FormatterTable :=
  [("value", hex), ("gas", hex), ("gasPrice", hex), ("nonce", hex)]

/-- Embeds `transaction_params_formatter` (geth.py line 57). -/
def transaction_params_formatter : Value → Option Value :=
  apply_formatters_to_dict TRANSACTION_PARAMS_FORMATTERS

/-- Embeds `TRANSACTION_FORMATTERS` (geth.py lines 60-70). -/
def TRANSACTION_FORMATTERS : FormatterTable :=
  [("blockNumber", apply_formatter_if to_integer_if_hex is_not_null),
   ("transactionIndex", apply_formatter_if to_integer_if_hex is_not_null),
   ("nonce", to_integer_if_hex),
   ("gas", to_integer_if_hex),
   ("gasPrice", to_integer_if_hex),
   ("value", to_integer_if_hex),
   ("from", to_normalized_address),
   ("to", to_normalized_address),
   ("hash", to_ascii_if_bytes)]

/-- Embeds `transaction_formatter` (geth.py line 73). -/
def transaction_formatter : Value → Option Value :=
  apply_formatters_to_dict TRANSACTION_FORMATTERS

/-- Embeds `LOG_ENTRY_FORMATTERS` (geth.py lines 76-84). -/
def LOG_ENTRY_FORMATTERS : FormatterTable :=
  [("blockHash", apply_formatter_if to_ascii_if_bytes is_not_null),
   ("blockNumber", apply_formatter_if to_integer_if_hex is_not_null),
   ("transactionIndex", apply_formatter_if to_integer_if_hex is_not_null),
   ("logIndex", to_integer_if_hex),
   ("address", to_normalized_address),
   ("topics", apply_formatter_to_array to_ascii_if_bytes),
   ("data", to_ascii_if_bytes)]

/-- Embeds `log_entry_formatter` (geth.py line 87). -/
def log_entry_formatter : Value → Option Value :=
  apply_formatters_to_dict LOG_ENTRY_FORMATTERS

/-- Embeds `RECEIPT_FORMATTERS` (geth.py lines 90-99). -/
def RECEIPT_FORMATTERS : FormatterTable :=
  [("blockHash", apply_formatter_if to_ascii_if_bytes is_not_null),
   ("blockNumber", apply_formatter_if to_integer_if_hex is_not_null),
   ("transactionIndex", apply_formatter_if to_integer_if_hex is_not_null),
   ("transactionHash", to_ascii_if_bytes),
   ("cumulativeGasUsed", to_integer_if_hex),
   ("gasUsed", to_integer_if_hex),
   ("contractAddress", apply_formatter_if to_normalized_address is_not_null),
   ("logs", apply_formatter_to_array log_entry_formatter)]

/-- Embeds `receipt_formatter` (geth.py line 102). -/
def receipt_formatter : Value → Option Value :=
  apply_formatters_to_dict RECEIPT_FORMATTERS

/-- Embeds `BLOCK_FORMATTERS` (geth.py lines 104-116). -/
def BLOCK_FORMATTERS : FormatterTable :=
  [("gasLimit", to_integer_if_hex),
   ("gasUsed", to_integer_if_hex),
   ("size", to_integer_if_hex),
   ("timestamp", to_integer_if_hex),
   ("hash", to_ascii_if_bytes),
   ("number", apply_formatter_if to_integer_if_hex is_not_null),
   ("difficulty", to_integer_if_hex),
   ("totalDifficulty", to_integer_if_hex),
   ("transactions", apply_formatter_to_array (apply_formatter_if transaction_formatter is_dict))]

/-- Embeds `block_formatter` (geth.py line 119). -/
def block_formatter : Value → Option Value := apply_formatters_to_dict BLOCK_FORMATTERS

/-- Embeds `SYNCING_FORMATTERS` (geth.py lines 122-128). -/
def SYNCING_FORMATTERS : FormatterTable :=
  [("startingBlock", to_integer_if_hex),
   ("currentBlock", to_integer_if_hex),
   ("highestBlock", to_integer_if_hex),
   ("knownStates", to_integer_if_hex),
   ("pulledStates", to_integer_if_hex)]

/-- Embeds `syncing_formatter` (geth.py line 131). -/
def syncing_formatter : Value → Option Value := apply_formatters_to_dict SYNCING_FORMATTERS

/-- Embeds `TRANSACTION_POOL_CONTENT_FORMATTERS` (geth.py lines 134-143): each
top-level key composes `keymap(to_ascii_if_bytes)` with
`valmap(transaction_formatter)`; `compose` runs the `valmap` first. -/
def TRANSACTION_POOL_CONTENT_FORMATTERS : FormatterTable :=
  [("pending", compose (keymap to_ascii_if_bytes) (valmap transaction_formatter)),
   ("queued", compose (keymap to_ascii_if_bytes) (valmap transaction_formatter))]

/-- Embeds `transaction_pool_content_formatter` (geth.py lines 146-148). -/
def transaction_pool_content_formatter : Value → Option Value :=
  apply_formatters_to_dict TRANSACTION_POOL_CONTENT_FORMATTERS

/-- Embeds `TRANSACTION_POOL_INSPECT_FORMATTERS` (geth.py lines 151-154). -/
def TRANSACTION_POOL_INSPECT_FORMATTERS : FormatterTable :=
  [("pending", keymap to_ascii_if_bytes),
   ("queued", keymap to_ascii_if_bytes)]

/-- Embeds `transaction_pool_inspect_formatter` (geth.py lines 157-159). -/
def transaction_pool_inspect_formatter : Value → Option Value :=
  apply_formatters_to_dict TRANSACTION_POOL_INSPECT_FORMATTERS

/-- Embeds `FILTER_PARAMS_FORMATTERS` (geth.py lines 162-165). -/
def FILTER_PARAMS_FORMATTERS : FormatterTable :=
  [("fromBlock", apply_formatter_if hex is_integer),
   ("toBlock", apply_formatter_if hex is_integer)]

/-- Embeds `filter_params_formatter` (geth.py line 168). -/
def filter_params_formatter : Value → Option Value :=
  apply_formatters_to_dict FILTER_PARAMS_FORMATTERS

/-- Embeds `GethFormattingMiddleware.request_formatters` (geth.py lines 172-198). -/
def request_formatters : FormatterTable :=
  [("eth_call", apply_formatter_at_index transaction_params_formatter 0),
   ("eth_getBalance", apply_formatter_at_index block_number_formatter 1),
   ("eth_getBlockByNumber", apply_formatter_at_index block_number_formatter 0),
   ("eth_getBlockTransactionCountByNumber", apply_formatter_at_index block_number_formatter 1),
   ("eth_getBlockTransactionCountByHash", apply_formatter_at_index block_number_formatter 1),
   ("eth_getCode", apply_formatter_at_index block_number_formatter 1),
   ("eth_getStorageAt",
     compose (apply_formatter_at_index hex 1) (apply_formatter_at_index block_number_formatter 2)),
   ("eth_getTransactionByBlockNumberAndIndex",
     compose (apply_formatter_at_index block_number_formatter 0) (apply_formatter_at_index hex 1)),
   ("eth_getTransactionByBlockHashAndIndex", apply_formatter_at_index hex 1),
   ("eth_getTransactionCount", apply_formatter_at_index block_number_formatter 1),
   ("eth_newFilter", apply_formatter_at_index filter_params_formatter 0),
   ("eth_sendTransaction", apply_formatter_at_index transaction_params_formatter 0)]

/-- Embeds `GethFormattingMiddleware.result_formatters` (geth.py lines 199-236). -/
def result_formatters : FormatterTable :=
  [("eth_accounts", apply_formatter_to_array to_normalized_address),
   ("eth_blockNumber", to_integer_if_hex),
   ("eth_coinbase", to_normalized_address),
   ("eth_estimateGas", to_integer_if_hex),
   ("eth_gasPrice", to_integer_if_hex),
   ("eth_getBlockByHash", block_formatter),
   ("eth_getBlockByNumber", block_formatter),
   ("eth_getBlockTransactionCountByHash", to_integer_if_hex),
   ("eth_getBlockTransactionCountByNumber", to_integer_if_hex),
   ("eth_getCode", to_ascii_if_bytes),
   ("eth_getFilterChanges", apply_formatter_to_array log_entry_formatter),
   ("eth_getFilterLogs", apply_formatter_to_array log_entry_formatter),
   ("eth_getTransactionByBlockHashAndIndex", apply_formatter_if transaction_formatter is_not_null),
   ("eth_getTransactionByBlockNumberAndIndex", apply_formatter_if transaction_formatter is_not_null),
   ("eth_getTransactionByHash", apply_formatter_if transaction_formatter is_not_null),
   ("eth_getTransactionCount", to_integer_if_hex),
   ("eth_getTransactionReceipt", apply_formatter_if receipt_formatter is_not_null),
   ("eth_hashrate", to_integer_if_hex),
   ("eth_sendRawTransaction", to_ascii_if_bytes),
   ("eth_sendTransaction", to_ascii_if_bytes),
   ("eth_syncing", apply_formatter_if syncing_formatter is_dict),
   ("shh_version", to_integer_if_hex),
   ("txpool_content", transaction_pool_content_formatter),
   ("txpool_inspect", transaction_pool_inspect_formatter)]

/-- Modelled from the spec: the dispatcher of `BaseFormatterMiddleware`
(module `web3.middleware.formatting`, not in the sources) — look the
method up in the request table; absent means identity, present means
apply the transformer once. -/
def formatRequest (method : String) (params : Value) : Option Value :=
  match convLookup request_formatters method with
  | some f => f params
  | none => some params

/-- Modelled from the spec: the dispatcher of `BaseFormatterMiddleware`
(module `web3.middleware.formatting`, not in the sources) — look the
method up in the result table; absent means identity, present means
apply the transformer once. -/
def formatResult (method : String) (result : Value) : Option Value :=
  match convLookup result_formatters method with
  | some f => f result
  | none => some result

/-- Unfolding equation for one fuel step of the digit expansion. -/
lemma natToHexAux_succ (fuel n : Nat) :
    natToHexAux (fuel + 1) n =
      if n < 16 then [hexDigitChar n]
      else natToHexAux fuel (n / 16) ++ [hexDigitChar (n % 16)] := rfl

/-- With positive fuel the digit expansion is never empty. -/
lemma natToHexAux_ne_nil (fuel n : Nat) : natToHexAux (fuel + 1) n ≠ [] := by
  rw [natToHexAux_succ]
  split <;> simp

/-- The hex digits of a natural number are never empty. -/
lemma natToHex_ne_nil (n : Nat) : natToHex n ≠ [] := natToHexAux_ne_nil n n

/-- Digit characters parse back to their value. -/
lemma hexDigitVal_hexDigitChar : ∀ n : Nat, n < 16 → hexDigitVal (hexDigitChar n) = some n := by
  decide

/-- Every digit character is a lowercase hex digit (out-of-range values
default to the digit zero, which also is one). -/
lemma isLowerHexDigit_hexDigitChar (n : Nat) : isLowerHexDigit (hexDigitChar n) = true := by
  by_cases h : n < 16
  · exact (by decide : ∀ m : Nat, m < 16 → isLowerHexDigit (hexDigitChar m) = true) n h
  · have hd : hexDigitChar n = '0' := by
      unfold hexDigitChar
      rw [if_neg (by omega), if_neg (by omega)]
    rw [hd]
    decide

/-- The accumulator parser distributes over list append. -/
lemma parseHexAux_append :
    ∀ (l1 l2 : List Char) (acc : Nat),
      parseHexAux acc (l1 ++ l2) = (parseHexAux acc l1).bind fun a => parseHexAux a l2 := by
  intro l1
  induction l1 with
  | nil => intro l2 acc; rfl
  | cons c cs ih =>
    intro l2 acc
    cases hv : hexDigitVal c with
    | some d => simp [parseHexAux, hv, ih]
    | none => simp [parseHexAux, hv]

/-- Parsing the digit expansion recovers the number below the accumulator. -/
lemma natToHexAux_parse :
    ∀ (fuel n acc : Nat), n < fuel →
      parseHexAux acc (natToHexAux fuel n) =
        some (acc * 16 ^ (natToHexAux fuel n).length + n) := by
  intro fuel
  induction fuel with
  | zero => intro n acc h; omega
  | succ fuel ih =>
    intro n acc h
    rw [natToHexAux_succ]
    by_cases h16 : n < 16
    · simp only [h16, if_true]
      simp [parseHexAux, hexDigitVal_hexDigitChar n h16]
    · simp only [h16, if_false]
      have hdiv : n / 16 < fuel := by omega
      rw [parseHexAux_append, ih (n / 16) acc hdiv]
      have hm : n % 16 < 16 := by omega
      simp only [Option.some_bind, parseHexAux, hexDigitVal_hexDigitChar (n % 16) hm,
        List.length_append, List.length_cons, List.length_nil, Nat.zero_add]
      congr 1
      have hmod : n / 16 * 16 + n % 16 = n := by omega
      calc (acc * 16 ^ (natToHexAux fuel (n / 16)).length + n / 16) * 16 + n % 16
          = acc * (16 ^ (natToHexAux fuel (n / 16)).length * 16) +
              (n / 16 * 16 + n % 16) := by ring
        _ = acc * 16 ^ ((natToHexAux fuel (n / 16)).length + 1) + n := by
              rw [hmod, pow_succ]

/-- Parsing the full digit run of a natural number yields it back. -/
lemma parseHexDigits_natToHex (n : Nat) : parseHexDigits (natToHex n) = some n := by
  have hne : natToHex n ≠ [] := natToHex_ne_nil n
  have hspec : parseHexAux 0 (natToHex n) = some (0 * 16 ^ (natToHex n).length + n) :=
    natToHexAux_parse (n + 1) n 0 (Nat.lt_succ_self n)
  rw [Nat.zero_mul, Nat.zero_add] at hspec
  cases hcs : natToHex n with
  | nil => exact absurd hcs hne
  | cons c cs =>
    rw [hcs] at hspec
    simpa [parseHexDigits] using hspec

/-- Every character of the digit expansion is a lowercase hex digit. -/
lemma natToHexAux_lower : ∀ fuel n : Nat, (natToHexAux fuel n).all isLowerHexDigit = true := by
  intro fuel
  induction fuel with
  | zero => intro n; rfl
  | succ fuel ih =>
    intro n
    rw [natToHexAux_succ]
    split
    · simp [isLowerHexDigit_hexDigitChar]
    · simp [List.all_append, ih, isLowerHexDigit_hexDigitChar]

/-- The digit expansion of a nonzero number never starts with the digit
zero. -/
lemma natToHexAux_head :
    ∀ fuel n : Nat, n < fuel → n ≠ 0 → (natToHexAux fuel n).head? ≠ some '0' := by
  intro fuel
  induction fuel with
  | zero => intro n h; omega
  | succ fuel ih =>
    intro n h hn0
    rw [natToHexAux_succ]
    by_cases h16 : n < 16
    · simp only [h16, if_true, List.head?_cons]
      have : hexDigitChar n ≠ '0' :=
        (by decide : ∀ m : Nat, m < 16 → m ≠ 0 → hexDigitChar m ≠ '0') n h16 hn0
      simp [this]
    · simp only [h16, if_false]
      have hdiv : n / 16 < fuel := by omega
      have hdiv0 : n / 16 ≠ 0 := by omega
      have hfe : fuel ≠ 0 := by omega
      obtain ⟨fuel2, rfl⟩ : ∃ f, fuel = f + 1 := ⟨fuel - 1, by omega⟩
      have hne : natToHexAux (fuel2 + 1) (n / 16) ≠ [] := natToHexAux_ne_nil fuel2 (n / 16)
      have hh := ih (n / 16) hdiv hdiv0
      cases hl : natToHexAux (fuel2 + 1) (n / 16) with
      | nil => exact absurd hl hne
      | cons a as =>
        rw [hl] at hh
        simpa using hh

/-- Positional replacement beyond the end of the list fails. -/
lemma setAtIndex_none :
    ∀ (f : Value → Option Value) (xs : List Value) (i : Nat),
      xs.length ≤ i → setAtIndex f i xs = none := by
  intro f xs
  induction xs with
  | nil => intro i _; cases i <;> rfl
  | cons x rest ih =>
    intro i h
    cases i with
    | zero => simp at h
    | succ j =>
      show (setAtIndex f j rest).map (x :: ·) = none
      rw [ih j (by simpa using h)]
      rfl

/-- Successful positional replacement preserves the list length. -/
lemma setAtIndex_length :
    ∀ (f : Value → Option Value) (xs : List Value) (i : Nat) (ys : List Value),
      setAtIndex f i xs = some ys → ys.length = xs.length := by
  intro f xs
  induction xs with
  | nil => intro i ys h; cases i <;> simp [setAtIndex] at h
  | cons x rest ih =>
    intro i ys h
    cases i with
    | zero =>
      cases hfx : f x with
      | none => simp [setAtIndex, hfx] at h
      | some y =>
        simp [setAtIndex, hfx] at h
        rw [← h]
        simp
    | succ j =>
      cases hrec : setAtIndex f j rest with
      | none => simp [setAtIndex, hrec] at h
      | some zs =>
        simp [setAtIndex, hrec] at h
        rw [← h]
        simp [ih j zs hrec]

/-- Successful positional replacement is element replacement via
`List.set`. -/
lemma setAtIndex_of_get :
    ∀ (f : Value → Option Value) (xs : List Value) (i : Nat) (x y : Value),
      xs[i]? = some x → f x = some y → setAtIndex f i xs = some (xs.set i y) := by
  intro f xs
  induction xs with
  | nil => intro i x y h; simp at h
  | cons a rest ih =>
    intro i x y hget hfx
    cases i with
    | zero =>
      simp at hget
      subst hget
      simp [setAtIndex, hfx]
    | succ j =>
      simp at hget
      simp [setAtIndex, ih j x y hget hfx]

/-- The converter `block_number_formatter` never fails: integers are hex-encoded and every
other value passes through. -/
lemma block_number_formatter_total (v : Value) : ∃ y, block_number_formatter v = some y := by
  cases v <;> exact ⟨_, rfl⟩

/-- Positional application at index one and at index two commute: the two
replacements touch distinct positions, and both orders fail in exactly the
same cases (short input, non-sequence input, converter failure). -/
lemma apply_at_index_one_two_comm (f g : Value → Option Value) :
    ∀ v : Value,
      (apply_formatter_at_index g 2 v).bind (apply_formatter_at_index f 1) =
        (apply_formatter_at_index f 1 v).bind (apply_formatter_at_index g 2) := by
  intro v
  cases v with
  | seq xs =>
    match xs with
    | [] => rfl
    | [a] => rfl
    | [a, b] =>
      cases hfb : f b <;>
        simp [apply_formatter_at_index, setAtIndex, hfb]
    | a :: b :: c :: rest =>
      cases hgc : g c <;> cases hfb : f b <;>
        simp [apply_formatter_at_index, setAtIndex, hgc, hfb]
  | null => rfl
  | bool b => rfl
  | int i => rfl
  | str s => rfl
  | bytes bs => rfl
  | map kvs => rfl

/-- A key the table does not register leaves its value unchanged. -/
lemma tableStep_exempt :
    ∀ (t : FormatterTable) (k x : Value), tableHasKey t k = false → tableStep t k x = some x := by
  intro t k x h
  cases k with
  | str s =>
    cases hc : convLookup t s with
    | none => simp [tableStep, hc]
    | some f => simp [tableHasKey, hc] at h
  | null => rfl
  | bool b => rfl
  | int i => rfl
  | bytes bs => rfl
  | seq xs => rfl
  | map kvs => rfl

/-- A successful table pass reproduces the input's keys exactly, in order. -/
lemma applyTableToPairs_keys :
    ∀ (t : FormatterTable) (kvs ys : List (Value × Value)),
      applyTableToPairs t kvs = some ys → ys.map Prod.fst = kvs.map Prod.fst := by
  intro t kvs
  induction kvs with
  | nil =>
    intro ys h
    simp [applyTableToPairs] at h
    rw [← h]
  | cons p rest ih =>
    obtain ⟨k, x⟩ := p
    intro ys h
    cases hstep : tableStep t k x with
    | none => simp [applyTableToPairs, hstep] at h
    | some y =>
      cases hrec : applyTableToPairs t rest with
      | none => simp [applyTableToPairs, hstep, hrec] at h
      | some zs =>
        simp [applyTableToPairs, hstep, hrec] at h
        rw [← h]
        simp [ih zs hrec]

/-- In a successful table pass, a pair whose key the table does not
register is reproduced unchanged at its position. -/
lemma applyTableToPairs_exempt_get :
    ∀ (t : FormatterTable) (kvs ys : List (Value × Value)),
      applyTableToPairs t kvs = some ys →
        ∀ (i : Nat) (k v : Value), kvs[i]? = some (k, v) → tableHasKey t k = false →
          ys[i]? = some (k, v) := by
  intro t kvs
  induction kvs with
  | nil => intro ys h i k v hget; simp at hget
  | cons p rest ih =>
    obtain ⟨k0, x0⟩ := p
    intro ys h i k v hget hk
    cases hstep : tableStep t k0 x0 with
    | none => simp [applyTableToPairs, hstep] at h
    | some y =>
      cases hrec : applyTableToPairs t rest with
      | none => simp [applyTableToPairs, hstep, hrec] at h
      | some zs =>
        simp [applyTableToPairs, hstep, hrec] at h
        subst h
        cases i with
        | zero =>
          simp at hget
          obtain ⟨hk0, hx0⟩ := hget
          rw [← hk0] at hk
          have hid := tableStep_exempt t k0 x0 hk
          rw [hid] at hstep
          have hy : x0 = y := by injection hstep
          simp [hk0, hx0, ← hy]
        | succ j =>
          simp at hget
          simpa using ih zs hrec j k v hget hk

/-- When no input key is registered in the table, the pass is the
identity and cannot fail. -/
lemma applyTableToPairs_all_exempt :
    ∀ (t : FormatterTable) (kvs : List (Value × Value)),
      (∀ p ∈ kvs, tableHasKey t p.1 = false) → applyTableToPairs t kvs = some kvs := by
  intro t kvs
  induction kvs with
  | nil => intro _; rfl
  | cons p rest ih =>
    obtain ⟨k, x⟩ := p
    intro h
    have hk : tableHasKey t k = false := h (k, x) (List.mem_cons_self _ _)
    have hrest : applyTableToPairs t rest = some rest :=
      ih fun q hq => h q (List.mem_cons_of_mem _ hq)
    simp [applyTableToPairs, tableStep_exempt t k x hk, hrest]

/-- Claim C1: the claim demands that every converter in the tables be
idempotent on its own output, with `transaction_params_formatter` applied
twice being a no-op; the code violates this — `hex('0x5')` raises, so the
second application of `transaction_params_formatter` to its own output
fails instead of being a no-op. -/
theorem transaction_params_formatter_not_idempotent :
    transaction_params_formatter (Value.map [(Value.str "value", Value.int 5)]) =
      some (Value.map [(Value.str "value", Value.str "0x5")]) ∧
    transaction_params_formatter (Value.map [(Value.str "value", Value.str "0x5")]) = none :=
  ⟨rfl, rfl⟩

/-- Claim C2, counterexample: `compose` (from cytoolz) does not apply its
first-listed function first — at `f = to_integer_if_hex`,
`g = block_number_formatter`, `v = 5`, `compose(f, g)(v)` differs from
applying `f` first and `g` to its result. -/
theorem compose_not_left_to_right_cex :
    compose to_integer_if_hex block_number_formatter (Value.int 5) = some (Value.int 5) ∧
    (to_integer_if_hex (Value.int 5)).bind block_number_formatter = some (Value.str "0x5") ∧
    compose to_integer_if_hex block_number_formatter (Value.int 5) ≠
      (to_integer_if_hex (Value.int 5)).bind block_number_formatter := by
  have h1 : compose to_integer_if_hex block_number_formatter (Value.int 5) =
      some (Value.int 5) := rfl
  have h2 : (to_integer_if_hex (Value.int 5)).bind block_number_formatter =
      some (Value.str "0x5") := rfl
  refine ⟨h1, h2, ?_⟩
  intro h
  rw [h1, h2] at h
  simp at h

/-- Claim C2, amended: the eth_getStorageAt request formatter is composed
right-to-left — the index-2 (block-number) formatter runs first on the
original sequence and the index-1 (hex) formatter second; because the two
touch distinct positions, the result also equals running index-1 first. -/
theorem eth_getStorageAt_composed_right_to_left :
    ∀ v : Value,
      formatRequest "eth_getStorageAt" v =
        (apply_formatter_at_index block_number_formatter 2 v).bind
          (apply_formatter_at_index hex 1) ∧
      formatRequest "eth_getStorageAt" v =
        (apply_formatter_at_index hex 1 v).bind
          (apply_formatter_at_index block_number_formatter 2) := by
  intro v
  have h0 : formatRequest "eth_getStorageAt" v =
      (apply_formatter_at_index block_number_formatter 2 v).bind
        (apply_formatter_at_index hex 1) := rfl
  exact ⟨h0, h0.trans (apply_at_index_one_two_comm hex block_number_formatter v)⟩

/-- Claim C3: on the double-nested txpool_content shape the code decodes
the outer sender key, but the transaction field table is applied to the
nonce-keyed inner mapping (whose keys are nonces, absent from the table),
so the innermost transaction values — here `value = "0x1"` — pass through
unformatted instead of becoming integers. -/
theorem txpool_content_inner_transactions_unformatted :
    formatResult "txpool_content"
        (Value.map [(Value.str "pending",
          Value.map [(Value.bytes [48, 120, 65, 66],
            Value.map [(Value.str "0",
              Value.map [(Value.str "value", Value.str "0x1")])])])]) =
      some (Value.map [(Value.str "pending",
        Value.map [(Value.str "0xAB",
          Value.map [(Value.str "0",
            Value.map [(Value.str "value", Value.str "0x1")])])])]) ∧
    transaction_formatter (Value.map [(Value.str "0",
        Value.map [(Value.str "value", Value.str "0x1")])]) =
      some (Value.map [(Value.str "0",
        Value.map [(Value.str "value", Value.str "0x1")])]) ∧
    Value.str "0x1" ≠ Value.int 1 :=
  ⟨rfl, rfl, by simp⟩

/-- Claim C4, counterexample: the integer-to-hex step of
`block_number_formatter` does not fail on a negative integer — Python's
`hex(-1)` returns `'-0x1'`. -/
theorem block_number_formatter_negative_cex :
    block_number_formatter (Value.int (-1)) = some (Value.str "-0x1") ∧
    block_number_formatter (Value.int (-1)) ≠ none := by
  have h : block_number_formatter (Value.int (-1)) = some (Value.str "-0x1") := rfl
  exact ⟨h, by rw [h]; simp⟩

/-- Claim C4, amended: the integer-to-hex converter accepts any integer —
on a non-negative one it returns lowercase `0x`-prefixed hex text with no
leading zero padding beyond a single digit, on a negative one it returns
`-0x`-prefixed hex of the magnitude instead of failing — and it also
accepts booleans, which Python treats as the integers one and zero; on
every other input (text, null, byte strings, sequences, mappings) it
fails. -/
theorem hex_integer_to_hex_behavior :
    (∀ n : Nat,
      hex (Value.int (Int.ofNat n)) = some (Value.str (String.mk ('0' :: 'x' :: natToHex n))) ∧
      (natToHex n).all isLowerHexDigit = true ∧
      ((natToHex n).length = 1 ∨ (natToHex n).head? ≠ some '0')) ∧
    (∀ m : Nat,
      hex (Value.int (Int.negSucc m)) =
        some (Value.str (String.mk ('-' :: '0' :: 'x' :: natToHex (m + 1))))) ∧
    (hex (Value.bool true) = some (Value.str "0x1") ∧
      hex (Value.bool false) = some (Value.str "0x0")) ∧
    (∀ s : String, hex (Value.str s) = none) ∧
    hex Value.null = none ∧
    (∀ bs : List Nat, hex (Value.bytes bs) = none) ∧
    (∀ xs : List Value, hex (Value.seq xs) = none) ∧
    (∀ kvs : List (Value × Value), hex (Value.map kvs) = none) := by
  refine ⟨fun n => ⟨rfl, natToHexAux_lower (n + 1) n, ?_⟩, fun m => rfl, ⟨rfl, rfl⟩,
    fun s => rfl, rfl, fun bs => rfl, fun xs => rfl, fun kvs => rfl⟩
  by_cases h0 : n = 0
  · left
    rw [h0]
    rfl
  · right
    exact natToHexAux_head (n + 1) n (Nat.lt_succ_self n) h0

/-- Claim C5: converting a non-negative integer to hex text with the
integer-to-hex converter and parsing it back with the hex-to-integer
converter yields the integer again. -/
theorem hex_to_integer_roundtrip :
    ∀ n : Nat,
      (hex (Value.int (Int.ofNat n))).bind hex_to_integer = some (Value.int (Int.ofNat n)) := by
  intro n
  have h1 : (hex (Value.int (Int.ofNat n))).bind hex_to_integer =
      (parseHexDigits (dropHex0x ('0' :: 'x' :: natToHex n))).map
        (fun m => Value.int (Int.ofNat m)) := rfl
  have h2 : dropHex0x ('0' :: 'x' :: natToHex n) = natToHex n := rfl
  rw [h1, h2, parseHexDigits_natToHex]
  rfl

/-- Claim C6: for every converter `f`, the guarded converter
`apply_formatter_if f is_not_null` leaves `null` unchanged and never
invokes `f`; in particular the null-guarded `blockNumber` and
`transactionIndex` entries of the transaction field table leave null
fields null. -/
theorem apply_formatter_if_null_guard :
    (∀ f : Value → Option Value, apply_formatter_if f is_not_null Value.null = some Value.null) ∧
    transaction_formatter (Value.map [(Value.str "blockNumber", Value.null),
        (Value.str "transactionIndex", Value.null)]) =
      some (Value.map [(Value.str "blockNumber", Value.null),
        (Value.str "transactionIndex", Value.null)]) :=
  ⟨fun _ => rfl, rfl⟩

/-- Claim C7: positional application at an index at or beyond the sequence
length fails, and a successful positional application returns a sequence
of exactly the input's length — it never extends the sequence. -/
theorem apply_formatter_at_index_out_of_range :
    ∀ (c : Value → Option Value) (xs : List Value) (i : Nat),
      (xs.length ≤ i → apply_formatter_at_index c i (Value.seq xs) = none) ∧
      (∀ w, apply_formatter_at_index c i (Value.seq xs) = some w →
        ∃ ys, w = Value.seq ys ∧ ys.length = xs.length) := by
  intro c xs i
  constructor
  · intro h
    show (setAtIndex c i xs).map Value.seq = none
    rw [setAtIndex_none c xs i h]
    rfl
  · intro w hw
    have h : (setAtIndex c i xs).map Value.seq = some w := hw
    cases hset : setAtIndex c i xs with
    | none => rw [hset] at h; exact absurd h (by simp)
    | some ys =>
      rw [hset] at h
      refine ⟨ys, ?_, setAtIndex_length c xs i ys hset⟩
      injection h with h2
      exact h2.symm

/-- Witness for claim C7 at a one-element sequence and index one (out of
range), and at index zero (in range, length preserved). -/
theorem apply_formatter_at_index_out_of_range_witness :
    apply_formatter_at_index hex 1 (Value.seq [Value.int 0]) = none ∧
    ∃ ys, Value.seq [Value.str "0x0"] = Value.seq ys ∧ ys.length = [Value.int 0].length :=
  ⟨(apply_formatter_at_index_out_of_range hex [Value.int 0] 1).1 (by decide),
   (apply_formatter_at_index_out_of_range hex [Value.int 0] 0).2 (Value.seq [Value.str "0x0"]) rfl⟩

/-- Claim C8: a successful table application reproduces the input
mapping's keys exactly — keys absent from the table keep their values
unchanged at their positions, table keys absent from the input are never
added — and when no input key is registered the application succeeds as
the identity (table keys absent from the input are skipped, no error). -/
theorem apply_formatters_to_dict_frame :
    ∀ (t : FormatterTable) (kvs : List (Value × Value)),
      (∀ w, apply_formatters_to_dict t (Value.map kvs) = some w →
        ∃ ys, w = Value.map ys ∧ ys.map Prod.fst = kvs.map Prod.fst ∧
          ∀ (i : Nat) (k v : Value), kvs[i]? = some (k, v) → tableHasKey t k = false →
            ys[i]? = some (k, v)) ∧
      ((∀ p ∈ kvs, tableHasKey t p.1 = false) →
        apply_formatters_to_dict t (Value.map kvs) = some (Value.map kvs)) := by
  intro t kvs
  constructor
  · intro w hw
    have h : (applyTableToPairs t kvs).map Value.map = some w := hw
    cases hp : applyTableToPairs t kvs with
    | none => rw [hp] at h; exact absurd h (by simp)
    | some ys =>
      rw [hp] at h
      refine ⟨ys, ?_, applyTableToPairs_keys t kvs ys hp, applyTableToPairs_exempt_get t kvs ys hp⟩
      injection h with h2
      exact h2.symm
  · intro h
    show (applyTableToPairs t kvs).map Value.map = some (Value.map kvs)
    rw [applyTableToPairs_all_exempt t kvs h]
    rfl

/-- Witness for claim C8 on the transaction-params table and a mapping
holding only a key the table does not register. -/
theorem apply_formatters_to_dict_frame_witness :
    apply_formatters_to_dict TRANSACTION_PARAMS_FORMATTERS
        (Value.map [(Value.str "other", Value.int 3)]) =
      some (Value.map [(Value.str "other", Value.int 3)]) ∧
    ∃ ys, Value.map [(Value.str "other", Value.int 3)] = Value.map ys ∧
      ys.map Prod.fst = [(Value.str "other", Value.int 3)].map Prod.fst ∧
      ∀ (i : Nat) (k v : Value), [(Value.str "other", Value.int 3)][i]? = some (k, v) →
        tableHasKey TRANSACTION_PARAMS_FORMATTERS k = false → ys[i]? = some (k, v) := by
  constructor
  · exact (apply_formatters_to_dict_frame TRANSACTION_PARAMS_FORMATTERS
      [(Value.str "other", Value.int 3)]).2 (by intro p hp; simp at hp; rw [hp]; rfl)
  · exact (apply_formatters_to_dict_frame TRANSACTION_PARAMS_FORMATTERS
      [(Value.str "other", Value.int 3)]).1 (Value.map [(Value.str "other", Value.int 3)]) rfl

/-- Claim C9: the eth_getBalance request formatter hex-encodes an integer
at position one of the parameter sequence and leaves every other position
untouched. -/
theorem eth_getBalance_request_formats_index_one :
    ∀ (xs : List Value) (n : Nat),
      xs[1]? = some (Value.int (Int.ofNat n)) →
      formatRequest "eth_getBalance" (Value.seq xs) =
        some (Value.seq (xs.set 1 (Value.str (String.mk ('0' :: 'x' :: natToHex n))))) := by
  intro xs n h
  have h0 : formatRequest "eth_getBalance" (Value.seq xs) =
      (setAtIndex block_number_formatter 1 xs).map Value.seq := rfl
  have hb : block_number_formatter (Value.int (Int.ofNat n)) =
      some (Value.str (String.mk ('0' :: 'x' :: natToHex n))) := rfl
  rw [h0, setAtIndex_of_get block_number_formatter xs 1 _ _ h hb]
  rfl

/-- Witness for claim C9: the spec's scenario — formatting
`eth_getBalance` parameters `["0xabc", 15]` turns the second element into
`"0xf"` and keeps the first. -/
theorem eth_getBalance_request_formats_index_one_witness :
    formatRequest "eth_getBalance" (Value.seq [Value.str "0xabc", Value.int 15]) =
      some (Value.seq [Value.str "0xabc", Value.str "0xf"]) :=
  (eth_getBalance_request_formats_index_one [Value.str "0xabc", Value.int 15] 15 rfl).trans rfl

/-- Claim C10: the request formatters of the two one-argument
block-transaction-count methods target position one, leaving position zero
(the block argument such methods actually send) unchanged — so on every
one-element parameter list both formatters fail, and on longer lists the
element at position zero is never touched. -/
theorem getBlockTransactionCount_request_index_one :
    (∀ v : Value,
      formatRequest "eth_getBlockTransactionCountByNumber" (Value.seq [v]) = none ∧
      formatRequest "eth_getBlockTransactionCountByHash" (Value.seq [v]) = none) ∧
    (∀ (v0 v1 : Value) (rest : List Value), ∃ y,
      block_number_formatter v1 = some y ∧
      formatRequest "eth_getBlockTransactionCountByNumber" (Value.seq (v0 :: v1 :: rest)) =
        some (Value.seq (v0 :: y :: rest)) ∧
      formatRequest "eth_getBlockTransactionCountByHash" (Value.seq (v0 :: v1 :: rest)) =
        some (Value.seq (v0 :: y :: rest))) := by
  constructor
  · intro v
    exact ⟨rfl, rfl⟩
  · intro v0 v1 rest
    obtain ⟨y, hy⟩ := block_number_formatter_total v1
    refine ⟨y, hy, ?_, ?_⟩ <;>
    · show (setAtIndex block_number_formatter 1 (v0 :: v1 :: rest)).map Value.seq = _
      simp [setAtIndex, hy]
